import Mathlib

/-!
Shallow embedding of the HRMS Lite backend (src/main.py): a two-table
relational store (employees, attendance) with create/read/delete operations
on employees and an upsert mark-attendance operation, together with the
pydantic validation layer. Handlers are modelled as pure functions from a
`DB` state to `Except Err` results; a raised `HTTPException` becomes an
`Err` value with its status code and detail string, and a pydantic
validation failure becomes an `Err` with status 422.
-/

namespace HrmsLite

/-! ## Calendar dates (datetime.date / date.fromisoformat / isoformat) -/

/-- A calendar date as Python's `datetime.date`: year 1..9999 with a valid
month and day (the parser below only ever builds valid ones). -/
structure CalDate where
  year : Nat
  month : Nat
  day : Nat
deriving DecidableEq, Repr

/-- Gregorian leap-year rule used by `datetime.date`. -/
def isLeap (y : Nat) : Bool := y % 4 == 0 && (y % 100 != 0 || y % 400 == 0)

/-- Days in a month of a given year. -/
def daysInMonth (y m : Nat) : Nat :=
  if m == 2 then (if isLeap y then 29 else 28)
  else if m == 4 || m == 6 || m == 9 || m == 11 then 30
  else 31

/-- Numeric value of a decimal digit character. -/
def digitVal (c : Char) : Nat := c.toNat - 48

/-- The number denoted by a list of decimal digit characters. -/
def digitsToNat (cs : List Char) : Nat := cs.foldl (fun a c => a * 10 + digitVal c) 0

/-- `date.fromisoformat`: accepts exactly `YYYY-MM-DD` (four digits, dash,
two digits, dash, two digits) denoting a valid calendar date, and nothing
else; in particular it does not strip whitespace. -/
def dateFromIso (s : String) : Option CalDate :=
  match s.toList with
  | [y1, y2, y3, y4, s1, m1, m2, s2, d1, d2] =>
    if s1 == '-' && s2 == '-' && [y1, y2, y3, y4, m1, m2, d1, d2].all Char.isDigit then
      let y := digitsToNat [y1, y2, y3, y4]
      let m := digitsToNat [m1, m2]
      let d := digitsToNat [d1, d2]
      if 1 ≤ y ∧ 1 ≤ m ∧ m ≤ 12 ∧ 1 ≤ d ∧ d ≤ daysInMonth y m then some ⟨y, m, d⟩
      else none
    else none
  | _ => none

/-- Decimal rendering padded to two digits. -/
def pad2 (n : Nat) : String := if n < 10 then "0" ++ toString n else toString n

/-- Decimal rendering padded to four digits. -/
def pad4 (n : Nat) : String :=
  if n < 10 then "000" ++ toString n
  else if n < 100 then "00" ++ toString n
  else if n < 1000 then "0" ++ toString n
  else toString n

/-- `date.isoformat()`: the `YYYY-MM-DD` rendering of a date. -/
def isoformat (d : CalDate) : String := pad4 d.year ++ "-" ++ pad2 d.month ++ "-" ++ pad2 d.day

/-! ## Schemas (pydantic models and validators) -/

/-- The attendance status enumeration `Literal["Present", "Absent"]`. -/
inductive Status where
  | Present
  | Absent
deriving DecidableEq, Repr

/-- Parsing a JSON string against `Literal["Present", "Absent"]`. -/
def statusFromString (s : String) : Option Status :=
  if s == "Present" then some .Present
  else if s == "Absent" then some .Absent
  else none

/-- An error response: HTTP status code and detail message (an
`HTTPException`, or a pydantic validation failure reported as 422). -/
structure Err where
  status_code : Nat
  detail : String
deriving DecidableEq, Repr

/-- `EmployeeCreate` (also the `Employee` response shape, which subclasses it
without change): the four string fields of an employee payload. -/
structure EmployeeCreate where
  employee_id : String
  full_name : String
  email : String
  department : String
deriving DecidableEq, Repr

/-- The `Employee` response model is `EmployeeCreate` unchanged. -/
abbrev Employee := EmployeeCreate

/-- Python `str.strip()`: drop leading and trailing whitespace. -/
def pyStrip (s : String) : String :=
  String.mk (((s.toList.dropWhile Char.isWhitespace).reverse.dropWhile Char.isWhitespace).reverse)

/-- Python `str.lower()` on the ASCII range the email pattern admits. -/
def pyLower (s : String) : String := String.mk (s.toList.map Char.toLower)

/-- Python `str.split(sep)` for a one-character separator, on the character
list (`acc` holds the current piece reversed). Always yields at least one
piece. -/
def splitOnChar (sep : Char) : List Char → List Char → List (List Char)
  | [], acc => [acc.reverse]
  | c :: rest, acc =>
    if c == sep then acc.reverse :: splitOnChar sep rest []
    else splitOnChar sep rest (c :: acc)

/-- A character allowed in the email local part: `[a-zA-Z0-9_.+-]`. -/
def localChar (c : Char) : Bool := c.isAlphanum || c == '_' || c == '.' || c == '+' || c == '-'

/-- A character allowed in the first domain label: `[a-zA-Z0-9-]`. -/
def domainChar (c : Char) : Bool := c.isAlphanum || c == '-'

/-- A character allowed after the first domain dot: `[a-zA-Z0-9-.]`. -/
def domainTailChar (c : Char) : Bool := c.isAlphanum || c == '-' || c == '.'

/-- The domain side of the pattern: `[a-zA-Z0-9-]+\.[a-zA-Z0-9-.]+` — a
non-empty dotless first label, a dot, then a non-empty tail. -/
def domainOk (cs : List Char) : Bool :=
  match cs.span (fun c => c != '.') with
  | (lbl, '.' :: rest) =>
    !lbl.isEmpty && lbl.all domainChar && !rest.isEmpty && rest.all domainTailChar
  | _ => false

/-- Full match of `^[a-zA-Z0-9_.+-]+@[a-zA-Z0-9-]+\.[a-zA-Z0-9-.]+$`: since
no character class admits `@`, the string splits as local `@` domain. -/
def emailOk (s : String) : Bool :=
  match splitOnChar '@' s.toList [] with
  | [loc, dom] => !loc.isEmpty && loc.all localChar && domainOk dom
  | _ => false

/-- The `EmployeeCreate` field validators, in field order: `employee_id`,
`full_name`, `department` are trimmed and must be non-empty; `email` is
trimmed, lower-cased and must match the pattern. Any failure is a 422. -/
def validateEmployeeCreate (r : EmployeeCreate) : Except Err EmployeeCreate :=
  let eid := pyStrip r.employee_id
  if eid = "" then .error ⟨422, "Employee ID is required"⟩
  else
    let fn := pyStrip r.full_name
    if fn = "" then .error ⟨422, "Full name is required"⟩
    else
      let em := pyLower (pyStrip r.email)
      if emailOk em then
        let dep := pyStrip r.department
        if dep = "" then .error ⟨422, "Department is required"⟩
        else .ok ⟨eid, fn, em, dep⟩
      else .error ⟨422, "Invalid email format"⟩

/-- The raw attendance payload as received (status still a string). -/
structure RawAttendance where
  employee_id : String
  date : String
  status : String
deriving DecidableEq, Repr

/-- `AttendanceCreate` after validation (also the `AttendanceRecord`
response carries the same shape): note the `date` validator returns the
ORIGINAL string unchanged after checking it parses. -/
structure AttendanceCreate where
  employee_id : String
  date : String
  status : Status
deriving DecidableEq, Repr

/-- The `AttendanceCreate` validators in field order: `employee_id` trimmed
and non-empty; `date` checked (not trimmed) against `date.fromisoformat` and
returned unchanged; `status` must be literally Present or Absent. -/
def validateAttendanceCreate (r : RawAttendance) : Except Err AttendanceCreate :=
  if pyStrip r.employee_id = "" then .error ⟨422, "Employee ID is required"⟩
  else
    match dateFromIso r.date with
    | none => .error ⟨422, "Invalid date format. Use YYYY-MM-DD"⟩
    | some _ =>
      match statusFromString r.status with
      | none => .error ⟨422, "Input should be Present or Absent"⟩
      | some st => .ok ⟨pyStrip r.employee_id, r.date, st⟩

/-- The `AttendanceRecord` response shape: the owning employee's external
identifier, the ISO date string, and the status. -/
structure AttendanceRecord where
  employee_id : String
  date : String
  status : Status
deriving DecidableEq, Repr

/-! ## ORM rows and the store -/

/-- A row of the `employees` table. -/
structure EmployeeRow where
  id : Nat
  employee_id : String
  full_name : String
  email : String
  department : String
deriving DecidableEq, Repr

/-- A row of the `attendance` table; `employee_id` is the foreign key to
`EmployeeRow.id`. -/
structure AttendanceRow where
  id : Nat
  employee_id : Nat
  date : CalDate
  status : Status
deriving DecidableEq, Repr

/-- The store: both tables in insertion order plus the autoincrement
counters for the integer primary keys. -/
structure DB where
  employees : List EmployeeRow
  attendance : List AttendanceRow
  nextEmployeeId : Nat
  nextAttendanceId : Nat
deriving DecidableEq, Repr

/-- The freshly created schema: both tables empty. -/
def initDB : DB := ⟨[], [], 1, 1⟩

/-! ## Route handlers -/

/-- `GET /employees`: all employees mapped to the response shape. -/
def list_employees (db : DB) : List Employee :=
  db.employees.map (fun e => ⟨e.employee_id, e.full_name, e.email, e.department⟩)

/-- `POST /employees`: check duplicate `employee_id` (409), then duplicate
`email` (409), then insert and return the created representation (201). -/
def create_employee (data : EmployeeCreate) (db : DB) : Except Err (Employee × DB) :=
  match db.employees.find? (fun e => e.employee_id == data.employee_id) with
  | some _ => .error ⟨409, "Employee with ID " ++ data.employee_id ++ " already exists"⟩
  | none =>
    match db.employees.find? (fun e => e.email == data.email) with
    | some _ => .error ⟨409, "Email " ++ data.email ++ " is already registered"⟩
    | none =>
      let row : EmployeeRow :=
        ⟨db.nextEmployeeId, data.employee_id, data.full_name, data.email, data.department⟩
      let db2 : DB :=
        { db with employees := db.employees ++ [row], nextEmployeeId := db.nextEmployeeId + 1 }
      .ok (⟨row.employee_id, row.full_name, row.email, row.department⟩, db2)

/-- `GET /employees/[employee_id]`: look up by external identifier; 404 if
absent. -/
def get_employee (employee_id : String) (db : DB) : Except Err Employee :=
  match db.employees.find? (fun e => e.employee_id == employee_id) with
  | none => .error ⟨404, "Employee " ++ employee_id ++ " not found"⟩
  | some e => .ok ⟨e.employee_id, e.full_name, e.email, e.department⟩

/-- `DELETE /employees/[employee_id]`: look up by external identifier; 404
if absent; otherwise delete the row and, by the `all, delete-orphan` cascade
on the relationship, every attendance row whose foreign key is its primary
key. -/
def delete_employee (employee_id : String) (db : DB) : Except Err (String × DB) :=
  match db.employees.find? (fun e => e.employee_id == employee_id) with
  | none => .error ⟨404, "Employee " ++ employee_id ++ " not found"⟩
  | some e =>
    let db2 : DB :=
      { db with
        employees := db.employees.filter (fun x => x.id != e.id),
        attendance := db.attendance.filter (fun r => r.employee_id != e.id) }
    .ok ("Employee " ++ employee_id ++ " deleted successfully", db2)

/-- `query(AttendanceModel).join(EmployeeModel)`: each attendance row paired
with its owning employee (inner join on the foreign key; a row whose key
matches no employee is dropped, and `find?` models the row lookup). -/
def joinAttendance (db : DB) : List (AttendanceRow × EmployeeRow) :=
  db.attendance.filterMap
    (fun r => (db.employees.find? (fun e => e.id == r.employee_id)).map (fun e => (r, e)))

/-- Rendering one joined row to the response shape
(`rec.employee.employee_id`, `rec.date.isoformat()`, `rec.status`). -/
def renderRecord (p : AttendanceRow × EmployeeRow) : AttendanceRecord :=
  ⟨p.2.employee_id, isoformat p.1.date, p.1.status⟩

/-- Python `date.split("T")[0]`: the prefix before the first `T`.
`str.split` never raises and always yields at least one piece, so this
always returns `some`; the surrounding `except` branch in the source is
dead code. -/
def splitDateT (s : String) : Option String :=
  some (String.mk (s.toList.takeWhile (fun c => c != 'T')))

/-- Python truthiness of an optional query parameter: `None` and the empty
string are falsy. -/
def truthy (o : Option String) : Bool :=
  match o with
  | none => false
  | some s => !(s == "")

/-- `GET /attendance?employee_id=&date=`: join, filter by the owning
employee's external identifier when that parameter is truthy, then the date
branch: it computes `date.split("T")[0]` inside a try/except but NEVER
applies the result to the query (the source's latent defect), so the rows
returned ignore the date parameter entirely. -/
def list_attendance (employee_id date : Option String) (db : DB) :
    Except Err (List AttendanceRecord) :=
  let q := joinAttendance db
  let q :=
    if truthy employee_id then q.filter (fun p => p.2.employee_id == employee_id.getD "")
    else q
  if truthy date then
    match splitDateT (date.getD "") with
    | some _ => .ok (q.map renderRecord)
    | none => .error ⟨400, "Invalid date format. Use YYYY-MM-DD"⟩
  else .ok (q.map renderRecord)

/-- The ORM in-place status update `record.status = data.status` as the
commit writes it: the row with the found record's primary key gets the new
status, every other row is untouched. -/
def overwriteStatus (rid : Nat) (s : Status) (l : List AttendanceRow) : List AttendanceRow :=
  l.map (fun x => if x.id == rid then { x with status := s } else x)

/-- `POST /attendance`: look up the employee by external identifier (404 if
absent); parse the already-validated date (`date.fromisoformat` would raise
an uncaught exception — a 500 — were it invalid); look up an existing row
for (employee, date); if found overwrite its status in place (the update is
keyed on the row's primary key), else insert a new row; return the
resulting record. -/
def mark_attendance (data : AttendanceCreate) (db : DB) : Except Err (AttendanceRecord × DB) :=
  match db.employees.find? (fun e => e.employee_id == data.employee_id) with
  | none => .error ⟨404, "Employee " ++ data.employee_id ++ " not found"⟩
  | some emp =>
    match dateFromIso data.date with
    | none => .error ⟨500, "Internal Server Error"⟩
    | some d =>
      match db.attendance.find? (fun r => r.employee_id == emp.id && r.date == d) with
      | some rec0 =>
        let db2 : DB := { db with attendance := overwriteStatus rec0.id data.status db.attendance }
        .ok (⟨emp.employee_id, isoformat rec0.date, data.status⟩, db2)
      | none =>
        let row : AttendanceRow := ⟨db.nextAttendanceId, emp.id, d, data.status⟩
        let db2 : DB :=
          { db with attendance := db.attendance ++ [row],
                    nextAttendanceId := db.nextAttendanceId + 1 }
        .ok (⟨emp.employee_id, isoformat row.date, data.status⟩, db2)

/-- The store reached after a mark-attendance call: the new store on
success, the old store when the handler raised (nothing was committed). -/
def markDB (data : AttendanceCreate) (db : DB) : DB :=
  match mark_attendance data db with
  | .ok (_, db2) => db2
  | .error _ => db

/-- The store reached after a create-employee call. -/
def createDB (data : EmployeeCreate) (db : DB) : DB :=
  match create_employee data db with
  | .ok (_, db2) => db2
  | .error _ => db

/-- The store reached after a delete-employee call. -/
def deleteDB (eid : String) (db : DB) : DB :=
  match delete_employee eid db with
  | .ok (_, db2) => db2
  | .error _ => db

/-! ## The request alphabet and reachable states -/

/-- One inbound request, carrying its raw payload. -/
inductive Op where
  | createEmp (raw : EmployeeCreate)
  | listEmp
  | getEmp (employee_id : String)
  | delEmp (employee_id : String)
  | mark (raw : RawAttendance)
  | listAtt (employee_id date : Option String)
deriving Repr

/-- The store after serving one request: validation first, then the
handler; an error response leaves the store as it was (every handler raises
before mutating the session). Read-only requests never change the store. -/
def step (db : DB) (op : Op) : DB :=
  match op with
  | .createEmp raw =>
    match validateEmployeeCreate raw with
    | .ok data => createDB data db
    | .error _ => db
  | .delEmp eid => deleteDB eid db
  | .mark raw =>
    match validateAttendanceCreate raw with
    | .ok data => markDB data db
    | .error _ => db
  | .listEmp => db
  | .getEmp _ => db
  | .listAtt _ _ => db

/-- The store reached by serving a sequence of requests against a fresh
schema. -/
def run (ops : List Op) : DB := ops.foldl step initDB

/-! ## Invariants -/

/-- Two distinct employee rows differ in primary key, external identifier
and email (the three unique columns). -/
def EmpDistinct (a b : EmployeeRow) : Prop :=
  a.id ≠ b.id ∧ a.employee_id ≠ b.employee_id ∧ a.email ≠ b.email

/-- Two distinct attendance rows differ in primary key and in the
(employee, date) pair (`uq_employee_date`). -/
def AttDistinct (a b : AttendanceRow) : Prop :=
  a.id ≠ b.id ∧ ¬(a.employee_id = b.employee_id ∧ a.date = b.date)

/-- Store well-formedness: the unique columns are pairwise distinct, the
autoincrement counters dominate every present key, and every attendance
foreign key references an employee. -/
def WF (db : DB) : Prop :=
  db.employees.Pairwise EmpDistinct ∧
  (∀ e ∈ db.employees, e.id < db.nextEmployeeId) ∧
  db.attendance.Pairwise AttDistinct ∧
  (∀ r ∈ db.attendance, r.id < db.nextAttendanceId) ∧
  (∀ r ∈ db.attendance, ∃ e ∈ db.employees, e.id = r.employee_id)

instance (a b : EmployeeRow) : Decidable (EmpDistinct a b) := by
  unfold EmpDistinct
  infer_instance

instance (a b : AttendanceRow) : Decidable (AttDistinct a b) := by
  unfold AttDistinct
  infer_instance

instance (db : DB) : Decidable (WF db) := by
  unfold WF
  infer_instance

/-- How many attendance rows carry a given (employee, date) pair. -/
def pairCount (db : DB) (fk : Nat) (d : CalDate) : Nat :=
  (db.attendance.filter (fun r => r.employee_id == fk && r.date == d)).length

/-! ## Helper lemmas -/

/-- The employee lookup by external identifier misses exactly when no row
carries that identifier. -/
lemma find_eid_none_iff (db : DB) (x : String) :
    db.employees.find? (fun e => e.employee_id == x) = none ↔
      ∀ e ∈ db.employees, e.employee_id ≠ x := by
  rw [List.find?_eq_none]
  simp

/-- The employee lookup by email misses exactly when no row carries that
email. -/
lemma find_email_none_iff (db : DB) (x : String) :
    db.employees.find? (fun e => e.email == x) = none ↔
      ∀ e ∈ db.employees, e.email ≠ x := by
  rw [List.find?_eq_none]
  simp

/-- Two employee rows of a pairwise-distinct table with the same external
identifier are the same row. -/
lemma emp_eq_of_eid (l : List EmployeeRow) (h : l.Pairwise EmpDistinct) {a b : EmployeeRow}
    (ha : a ∈ l) (hb : b ∈ l) (he : a.employee_id = b.employee_id) : a = b := by
  induction l with
  | nil => cases ha
  | cons c t ih =>
    rw [List.pairwise_cons] at h
    rcases List.mem_cons.mp ha with rfl | ha' <;> rcases List.mem_cons.mp hb with rfl | hb'
    · rfl
    · exact absurd he (h.1 b hb').2.1
    · exact absurd he.symm (h.1 a ha').2.1
    · exact ih h.2 ha' hb'

/-- Two employee rows of a pairwise-distinct table with the same primary key
are the same row. -/
lemma emp_eq_of_id (l : List EmployeeRow) (h : l.Pairwise EmpDistinct) {a b : EmployeeRow}
    (ha : a ∈ l) (hb : b ∈ l) (he : a.id = b.id) : a = b := by
  induction l with
  | nil => cases ha
  | cons c t ih =>
    rw [List.pairwise_cons] at h
    rcases List.mem_cons.mp ha with rfl | ha' <;> rcases List.mem_cons.mp hb with rfl | hb'
    · rfl
    · exact absurd he (h.1 b hb').1
    · exact absurd he.symm (h.1 a ha').1
    · exact ih h.2 ha' hb'

/-- Two attendance rows of a pairwise-distinct table with the same
(employee, date) pair are the same row. -/
lemma att_eq_of_key (l : List AttendanceRow) (h : l.Pairwise AttDistinct) {a b : AttendanceRow}
    (ha : a ∈ l) (hb : b ∈ l) (hk : a.employee_id = b.employee_id) (hd : a.date = b.date) :
    a = b := by
  induction l with
  | nil => cases ha
  | cons c t ih =>
    rw [List.pairwise_cons] at h
    rcases List.mem_cons.mp ha with rfl | ha' <;> rcases List.mem_cons.mp hb with rfl | hb'
    · rfl
    · exact absurd ⟨hk, hd⟩ (h.1 b hb').2
    · exact absurd ⟨hk.symm, hd.symm⟩ (h.1 a ha').2
    · exact ih h.2 ha' hb'

/-- In a pairwise-distinct attendance table, at most one row carries a given
(employee, date) pair. -/
lemma pair_filter_length_le_one (l : List AttendanceRow) (fk : Nat) (d : CalDate)
    (h : l.Pairwise AttDistinct) :
    (l.filter (fun r => r.employee_id == fk && r.date == d)).length ≤ 1 := by
  induction l with
  | nil => simp
  | cons a t ih =>
    rw [List.pairwise_cons] at h
    rw [List.filter_cons]
    by_cases ha : (a.employee_id == fk && a.date == d) = true
    · rw [if_pos ha]
      have ht : t.filter (fun r => r.employee_id == fk && r.date == d) = [] := by
        rw [List.filter_eq_nil_iff]
        intro b hb hbm
        simp only [Bool.and_eq_true, beq_iff_eq] at ha hbm
        exact (h.1 b hb).2 ⟨ha.1.trans hbm.1.symm, ha.2.trans hbm.2.symm⟩
      simp [ht]
    · rw [if_neg ha]
      exact ih h.2

/-- `list_attendance` never errors: the date parse that could feed the 400
branch is a total string split, so the handler always returns the joined
rows (filtered by employee when that parameter is truthy) with the date
parameter ignored. -/
lemma list_attendance_eq (eidO dO : Option String) (db : DB) :
    list_attendance eidO dO db =
      .ok ((if truthy eidO then
              (joinAttendance db).filter (fun p => p.2.employee_id == eidO.getD "")
            else joinAttendance db).map renderRecord) := by
  unfold list_attendance splitDateT
  cases truthy dO <;> simp

/-! ## Handler shape lemmas -/

/-- Create with a conflicting external identifier: 409. -/
lemma create_eq_conflict_id (data : EmployeeCreate) (db : DB) (e : EmployeeRow)
    (h1 : db.employees.find? (fun x => x.employee_id == data.employee_id) = some e) :
    create_employee data db =
      .error ⟨409, "Employee with ID " ++ data.employee_id ++ " already exists"⟩ := by
  simp [create_employee, h1]

/-- Create with a fresh identifier but a conflicting email: 409. -/
lemma create_eq_conflict_email (data : EmployeeCreate) (db : DB) (e : EmployeeRow)
    (h1 : db.employees.find? (fun x => x.employee_id == data.employee_id) = none)
    (h2 : db.employees.find? (fun x => x.email == data.email) = some e) :
    create_employee data db =
      .error ⟨409, "Email " ++ data.email ++ " is already registered"⟩ := by
  simp [create_employee, h1, h2]

/-- Create with fresh identifier and email: the row is appended and echoed
back. -/
lemma create_eq_ok (data : EmployeeCreate) (db : DB)
    (h1 : db.employees.find? (fun x => x.employee_id == data.employee_id) = none)
    (h2 : db.employees.find? (fun x => x.email == data.email) = none) :
    create_employee data db =
      .ok (⟨data.employee_id, data.full_name, data.email, data.department⟩,
        { db with
          employees := db.employees ++
            [⟨db.nextEmployeeId, data.employee_id, data.full_name, data.email, data.department⟩],
          nextEmployeeId := db.nextEmployeeId + 1 }) := by
  simp [create_employee, h1, h2]

/-- Delete of a present employee: the row and its attendance are filtered
out. -/
lemma delete_eq_ok (eid : String) (db : DB) (e : EmployeeRow)
    (h1 : db.employees.find? (fun x => x.employee_id == eid) = some e) :
    delete_employee eid db =
      .ok ("Employee " ++ eid ++ " deleted successfully",
        { db with
          employees := db.employees.filter (fun x => x.id != e.id),
          attendance := db.attendance.filter (fun r => r.employee_id != e.id) }) := by
  simp [delete_employee, h1]

/-- Delete of an absent employee: 404. -/
lemma delete_eq_notfound (eid : String) (db : DB)
    (h1 : db.employees.find? (fun x => x.employee_id == eid) = none) :
    delete_employee eid db = .error ⟨404, "Employee " ++ eid ++ " not found"⟩ := by
  simp [delete_employee, h1]

/-- Mark for an unknown external identifier: 404 before any mutation. -/
lemma mark_eq_notfound (data : AttendanceCreate) (db : DB)
    (h1 : db.employees.find? (fun e => e.employee_id == data.employee_id) = none) :
    mark_attendance data db =
      .error ⟨404, "Employee " ++ data.employee_id ++ " not found"⟩ := by
  simp [mark_attendance, h1]

/-- Mark with a date string `date.fromisoformat` rejects: the uncaught
exception surfaces as a 500 (unreachable behind the 422 validator). -/
lemma mark_eq_baddate (data : AttendanceCreate) (db : DB) (emp : EmployeeRow)
    (h1 : db.employees.find? (fun e => e.employee_id == data.employee_id) = some emp)
    (hd : dateFromIso data.date = none) :
    mark_attendance data db = .error ⟨500, "Internal Server Error"⟩ := by
  simp [mark_attendance, h1, hd]

/-- Mark when a row for the (employee, date) pair already exists: that
row's status is overwritten in place (keyed on its primary key) and the
record is echoed back. -/
lemma mark_eq_update (data : AttendanceCreate) (db : DB) (emp : EmployeeRow) (d : CalDate)
    (rec0 : AttendanceRow)
    (h1 : db.employees.find? (fun e => e.employee_id == data.employee_id) = some emp)
    (hd : dateFromIso data.date = some d)
    (h2 : db.attendance.find? (fun r => r.employee_id == emp.id && r.date == d) = some rec0) :
    mark_attendance data db =
      .ok (⟨emp.employee_id, isoformat rec0.date, data.status⟩,
        { db with attendance := overwriteStatus rec0.id data.status db.attendance }) := by
  simp [mark_attendance, h1, hd, h2]

/-- Mark when no row for the (employee, date) pair exists: a fresh row is
inserted and echoed back. -/
lemma mark_eq_insert (data : AttendanceCreate) (db : DB) (emp : EmployeeRow) (d : CalDate)
    (h1 : db.employees.find? (fun e => e.employee_id == data.employee_id) = some emp)
    (hd : dateFromIso data.date = some d)
    (h2 : db.attendance.find? (fun r => r.employee_id == emp.id && r.date == d) = none) :
    mark_attendance data db =
      .ok (⟨emp.employee_id, isoformat d, data.status⟩,
        { db with
          attendance := db.attendance ++ [⟨db.nextAttendanceId, emp.id, d, data.status⟩],
          nextAttendanceId := db.nextAttendanceId + 1 }) := by
  simp [mark_attendance, h1, hd, h2]

/-- What a successful employee validation returns: trimmed fields, a
lower-cased email, and the checks that passed. -/
lemma validate_emp_ok (r data : EmployeeCreate) (hv : validateEmployeeCreate r = .ok data) :
    data = ⟨pyStrip r.employee_id, pyStrip r.full_name,
      pyLower (pyStrip r.email), pyStrip r.department⟩ ∧
    pyStrip r.employee_id ≠ "" ∧ pyStrip r.full_name ≠ "" ∧
    emailOk (pyLower (pyStrip r.email)) = true ∧ pyStrip r.department ≠ "" := by
  simp only [validateEmployeeCreate] at hv
  by_cases h1 : pyStrip r.employee_id = ""
  · rw [if_pos h1] at hv; cases hv
  rw [if_neg h1] at hv
  by_cases h2 : pyStrip r.full_name = ""
  · rw [if_pos h2] at hv; cases hv
  rw [if_neg h2] at hv
  by_cases h3 : emailOk (pyLower (pyStrip r.email)) = true
  swap
  · rw [if_neg h3] at hv; cases hv
  rw [if_pos h3] at hv
  by_cases h4 : pyStrip r.department = ""
  · rw [if_pos h4] at hv; cases hv
  rw [if_neg h4] at hv
  cases hv
  exact ⟨rfl, h1, h2, h3, h4⟩

/-- What a successful attendance validation returns: trimmed identifier,
the date string unchanged (and parsable), the parsed status. -/
lemma validate_att_ok (r : RawAttendance) (data : AttendanceCreate)
    (hv : validateAttendanceCreate r = .ok data) :
    data.employee_id = pyStrip r.employee_id ∧ pyStrip r.employee_id ≠ "" ∧
    data.date = r.date ∧ (∃ dd, dateFromIso r.date = some dd) ∧
    statusFromString r.status = some data.status := by
  simp only [validateAttendanceCreate] at hv
  by_cases h1 : pyStrip r.employee_id = ""
  · rw [if_pos h1] at hv; cases hv
  rw [if_neg h1] at hv
  cases hd : dateFromIso r.date with
  | none => rw [hd] at hv; cases hv
  | some dd =>
    rw [hd] at hv
    cases hs : statusFromString r.status with
    | none => rw [hs] at hv; cases hv
    | some st =>
      rw [hs] at hv
      cases hv
      exact ⟨rfl, h1, rfl, ⟨dd, rfl⟩, rfl⟩

/-- The fresh schema is well-formed. -/
lemma wf_init : WF initDB := by
  refine ⟨.nil, ?_, .nil, ?_, ?_⟩ <;> simp [initDB]

/-- A successful create keeps the store well-formed. -/
lemma wf_create (data : EmployeeCreate) (db : DB) (hwf : WF db) {resp : Employee} {db2 : DB}
    (h : create_employee data db = .ok (resp, db2)) : WF db2 := by
  cases h1 : db.employees.find? (fun e => e.employee_id == data.employee_id) with
  | some e => rw [create_eq_conflict_id data db e h1] at h; cases h
  | none =>
    cases h2 : db.employees.find? (fun e => e.email == data.email) with
    | some e => rw [create_eq_conflict_email data db e h1 h2] at h; cases h
    | none =>
      rw [create_eq_ok data db h1 h2] at h
      cases h
      obtain ⟨hp, hb, hap, hab, hfk⟩ := hwf
      have hid : ∀ e ∈ db.employees, e.employee_id ≠ data.employee_id := by
        rw [List.find?_eq_none] at h1; simpa using h1
      have hem : ∀ e ∈ db.employees, e.email ≠ data.email := by
        rw [List.find?_eq_none] at h2; simpa using h2
      refine ⟨?_, ?_, hap, hab, ?_⟩
      · rw [List.pairwise_append]
        refine ⟨hp, List.pairwise_singleton _ _, ?_⟩
        intro a ha b hb'
        rw [List.mem_singleton] at hb'; subst hb'
        exact ⟨Nat.ne_of_lt (hb a ha), hid a ha, hem a ha⟩
      · intro e he
        rw [List.mem_append, List.mem_singleton] at he
        rcases he with he | rfl
        · exact Nat.lt_succ_of_lt (hb e he)
        · exact Nat.lt_succ_self _
      · intro r hr
        obtain ⟨e, he, hee⟩ := hfk r hr
        exact ⟨e, List.mem_append_left _ he, hee⟩

/-- A successful delete keeps the store well-formed. -/
lemma wf_delete (eid : String) (db : DB) (hwf : WF db) {msg : String} {db2 : DB}
    (h : delete_employee eid db = .ok (msg, db2)) : WF db2 := by
  cases h1 : db.employees.find? (fun e => e.employee_id == eid) with
  | none => rw [delete_eq_notfound eid db h1] at h; cases h
  | some e =>
    rw [delete_eq_ok eid db e h1] at h
    cases h
    obtain ⟨hp, hb, hap, hab, hfk⟩ := hwf
    refine ⟨hp.filter _, ?_, hap.filter _, ?_, ?_⟩
    · intro x hx; exact hb x (List.mem_of_mem_filter hx)
    · intro r hr; exact hab r (List.mem_of_mem_filter hr)
    · intro r hr
      rw [List.mem_filter] at hr
      obtain ⟨hr1, hr2⟩ := hr
      obtain ⟨e2, he2, hee⟩ := hfk r hr1
      refine ⟨e2, ?_, hee⟩
      rw [List.mem_filter]
      refine ⟨he2, ?_⟩
      rw [bne_iff_ne] at hr2 ⊢
      rw [hee]; exact hr2

/-- A successful mark keeps the store well-formed: an update rewrites one
row's status in place, an insert appends a fresh primary key and a
(employee, date) pair the lookup just found absent. -/
lemma wf_mark (data : AttendanceCreate) (db : DB) (hwf : WF db) {resp : AttendanceRecord}
    {db2 : DB} (h : mark_attendance data db = .ok (resp, db2)) : WF db2 := by
  cases h1 : db.employees.find? (fun e => e.employee_id == data.employee_id) with
  | none =>
    rw [mark_eq_notfound data db h1] at h
    cases h
  | some emp =>
    cases hd : dateFromIso data.date with
    | none =>
      rw [mark_eq_baddate data db emp h1 hd] at h
      cases h
    | some d =>
      cases h2 : db.attendance.find? (fun r => r.employee_id == emp.id && r.date == d) with
      | some rec0 =>
        rw [mark_eq_update data db emp d rec0 h1 hd h2] at h
        cases h
        obtain ⟨hp, hb, hap, hab, hfk⟩ := hwf
        have hpres : ∀ x : AttendanceRow,
            ((if x.id == rec0.id then { x with status := data.status } else x) :
              AttendanceRow).id = x.id ∧
            ((if x.id == rec0.id then { x with status := data.status } else x) :
              AttendanceRow).employee_id = x.employee_id ∧
            ((if x.id == rec0.id then { x with status := data.status } else x) :
              AttendanceRow).date = x.date := by
          intro x; by_cases hx : (x.id == rec0.id) = true <;> simp [hx]
        refine ⟨hp, hb, ?_, ?_, ?_⟩
        · show List.Pairwise AttDistinct (overwriteStatus rec0.id data.status db.attendance)
          unfold overwriteStatus
          rw [List.pairwise_map]
          refine hap.imp ?_
          intro a b hab'
          obtain ⟨pa1, pa2, pa3⟩ := hpres a
          obtain ⟨pb1, pb2, pb3⟩ := hpres b
          unfold AttDistinct at hab' ⊢
          rw [pa1, pa2, pa3, pb1, pb2, pb3]
          exact hab'
        · intro r hr
          simp only [overwriteStatus, List.mem_map] at hr
          obtain ⟨x, hx, rfl⟩ := hr
          show ((if x.id == rec0.id then { x with status := data.status } else x) :
            AttendanceRow).id < db.nextAttendanceId
          rw [(hpres x).1]
          exact hab x hx
        · intro r hr
          simp only [overwriteStatus, List.mem_map] at hr
          obtain ⟨x, hx, rfl⟩ := hr
          show ∃ e ∈ db.employees, e.id = ((if x.id == rec0.id then
            { x with status := data.status } else x) : AttendanceRow).employee_id
          rw [(hpres x).2.1]
          exact hfk x hx
      | none =>
        rw [mark_eq_insert data db emp d h1 hd h2] at h
        cases h
        obtain ⟨hp, hb, hap, hab, hfk⟩ := hwf
        have hnone : ∀ r ∈ db.attendance, ¬(r.employee_id = emp.id ∧ r.date = d) := by
          rw [List.find?_eq_none] at h2
          intro r hr hk
          exact h2 r hr (by simp [hk.1, hk.2])
        refine ⟨hp, hb, ?_, ?_, ?_⟩
        · rw [List.pairwise_append]
          refine ⟨hap, List.pairwise_singleton _ _, ?_⟩
          intro a ha b hb'
          rw [List.mem_singleton] at hb'; subst hb'
          exact ⟨Nat.ne_of_lt (hab a ha), fun hk => hnone a ha hk⟩
        · intro r hr
          rw [List.mem_append, List.mem_singleton] at hr
          rcases hr with hr | rfl
          · exact Nat.lt_succ_of_lt (hab r hr)
          · exact Nat.lt_succ_self _
        · intro r hr
          rw [List.mem_append, List.mem_singleton] at hr
          rcases hr with hr | rfl
          · exact hfk r hr
          · exact ⟨emp, List.mem_of_find?_eq_some h1, rfl⟩

/-- Serving any one request preserves well-formedness. -/
lemma wf_step (db : DB) (op : Op) (h : WF db) : WF (step db op) := by
  cases op with
  | createEmp raw =>
    simp only [step]
    cases hv : validateEmployeeCreate raw with
    | error e => exact h
    | ok data =>
      show WF (createDB data db)
      unfold createDB
      cases hc : create_employee data db with
      | error e => exact h
      | ok p =>
        obtain ⟨resp, db2⟩ := p
        exact wf_create data db h hc
  | delEmp eid =>
    simp only [step]
    unfold deleteDB
    cases hc : delete_employee eid db with
    | error e => exact h
    | ok p =>
      obtain ⟨m, db2⟩ := p
      exact wf_delete eid db h hc
  | mark raw =>
    simp only [step]
    cases hv : validateAttendanceCreate raw with
    | error e => exact h
    | ok data =>
      show WF (markDB data db)
      unfold markDB
      cases hc : mark_attendance data db with
      | error e => exact h
      | ok p =>
        obtain ⟨resp, db2⟩ := p
        exact wf_mark data db h hc
  | listEmp => exact h
  | getEmp eid => exact h
  | listAtt a b => exact h

/-- Well-formedness along any request fold. -/
lemma wf_foldl (ops : List Op) : ∀ db, WF db → WF (ops.foldl step db) := by
  induction ops with
  | nil => intro db h; exact h
  | cons op t ih =>
    intro db h
    exact ih _ (wf_step db op h)

/-- Every reachable store is well-formed. -/
lemma wf_run (ops : List Op) : WF (run ops) := wf_foldl ops initDB wf_init

/-! ## Concrete stores used by witnesses and counterexamples -/

/-- A tiny concrete store: one employee, no attendance. -/
def dbW : DB := ⟨[⟨1, "E1", "Ann Lee", "ann@x.com", "Eng"⟩], [], 2, 1⟩

/-- A concrete store: one employee owning attendance rows on two different
dates. -/
def dbDates : DB :=
  ⟨[⟨1, "E1", "Ann Lee", "ann@x.com", "Eng"⟩],
   [⟨1, 1, ⟨2024, 1, 1⟩, .Present⟩, ⟨2, 1, ⟨2024, 1, 2⟩, .Present⟩], 2, 3⟩

/-! ## Claim theorems -/

/-- C10: the attendance list operation is total: for every store and every
pair of query parameters, including arbitrary malformed date strings,
`list_attendance` answers 200 with a list; the 400 "Invalid date format"
branch is unreachable because `date.split("T")[0]` never raises. -/
theorem list_attendance_never_fails (eidO dO : Option String) (db : DB) :
    ∃ l, list_attendance eidO dO db = .ok l :=
  ⟨_, list_attendance_eq eidO dO db⟩

/-- C5: evaluating the code at the failing input: a store whose one
employee owns rows on 2024-01-01 and 2024-01-02, queried with
`date=2024-01-01`, still returns BOTH rows — the parsed date filter is
never applied to the query, contradicting the claim that only rows of the
supplied date come back. -/
theorem list_attendance_date_filter_noop :
    list_attendance none (some "2024-01-01") dbDates =
      .ok [⟨"E1", "2024-01-01", .Present⟩, ⟨"E1", "2024-01-02", .Present⟩] := by
  rfl

/-- C7: marking attendance for an `employee_id` matching no stored employee
fails with 404 naming the identifier, and serving that request leaves the
store unchanged (the handler raises before touching the session). -/
theorem mark_attendance_unknown_employee (raw : RawAttendance) (data : AttendanceCreate)
    (db : DB) (hv : validateAttendanceCreate raw = .ok data)
    (h : ∀ e ∈ db.employees, e.employee_id ≠ data.employee_id) :
    mark_attendance data db = .error ⟨404, "Employee " ++ data.employee_id ++ " not found"⟩ ∧
    step db (.mark raw) = db := by
  have hf : db.employees.find? (fun e => e.employee_id == data.employee_id) = none :=
    (find_eid_none_iff db _).mpr h
  have hm : mark_attendance data db =
      .error ⟨404, "Employee " ++ data.employee_id ++ " not found"⟩ :=
    mark_eq_notfound data db hf
  refine ⟨hm, ?_⟩
  simp only [step, hv, markDB, hm]

/-- C7 witness: marking attendance for EX against a store holding only E1. -/
theorem mark_attendance_unknown_employee_witness :
    mark_attendance ⟨"EX", "2024-01-01", .Present⟩ dbW =
      .error ⟨404, "Employee EX not found"⟩ ∧
    step dbW (.mark ⟨"EX", "2024-01-01", "Present"⟩) = dbW :=
  mark_attendance_unknown_employee ⟨"EX", "2024-01-01", "Present"⟩
    ⟨"EX", "2024-01-01", .Present⟩ dbW (by rfl) (by decide)

/-- C8 counterexample: the attendance `date` field is NOT trimmed before
validation: a date string whose trimmed form parses as a YYYY-MM-DD
calendar date is nevertheless rejected, so "every string field ... is
trimmed of leading/trailing whitespace" fails on the date field. -/
theorem attendance_date_not_trimmed :
    validateAttendanceCreate ⟨"E1", " 2024-01-01", "Present"⟩ =
      .error ⟨422, "Invalid date format. Use YYYY-MM-DD"⟩ ∧
    dateFromIso (pyStrip " 2024-01-01") = some ⟨2024, 1, 1⟩ := by
  exact ⟨rfl, rfl⟩

/-- C8 (amended): the employee-create string fields are trimmed, rejected
as 422 if empty after trimming, the email additionally lower-cased and
pattern-checked; the attendance `employee_id` is likewise trimmed and
non-empty, while the attendance `date` string is validated AS IS (no
trimming) against YYYY-MM-DD calendar parsing and carried unchanged, and
the `status` must be literally Present or Absent; an unparsable date is a
422 validation failure, which is a different outcome (status 422) from the
handler's 404 not-found. -/
theorem validation_contract :
    (∀ r data, validateEmployeeCreate r = .ok data →
      data.employee_id = pyStrip r.employee_id ∧ data.employee_id ≠ "" ∧
      data.full_name = pyStrip r.full_name ∧ data.full_name ≠ "" ∧
      data.email = pyLower (pyStrip r.email) ∧ emailOk data.email = true ∧
      data.department = pyStrip r.department ∧ data.department ≠ "") ∧
    (∀ r data, validateAttendanceCreate r = .ok data →
      data.employee_id = pyStrip r.employee_id ∧ data.employee_id ≠ "" ∧
      data.date = r.date ∧ (∃ dd, dateFromIso r.date = some dd) ∧
      statusFromString r.status = some data.status) ∧
    (∀ r : RawAttendance, pyStrip r.employee_id ≠ "" → dateFromIso r.date = none →
      validateAttendanceCreate r = .error ⟨422, "Invalid date format. Use YYYY-MM-DD"⟩) := by
  refine ⟨?_, ?_, ?_⟩
  · intro r data hv
    obtain ⟨hshape, h1, h2, h3, h4⟩ := validate_emp_ok r data hv
    subst hshape
    exact ⟨rfl, h1, rfl, h2, rfl, h3, rfl, h4⟩
  · intro r data hv
    obtain ⟨he, h1, hdt, hex, hs⟩ := validate_att_ok r data hv
    exact ⟨he, by rw [he]; exact h1, hdt, hex, hs⟩
  · intro r hne hdate
    simp only [validateAttendanceCreate]
    rw [if_neg hne, hdate]

/-- C3: creating an employee whose fields passed validation first fails 409
naming the identifier when the `employee_id` is taken (store unchanged),
else fails 409 naming the email when the email is taken (store unchanged),
else inserts and returns the created representation with the new store. -/
theorem create_employee_conflicts (raw data : EmployeeCreate) (db : DB)
    (hv : validateEmployeeCreate raw = .ok data) :
    ((∃ e ∈ db.employees, e.employee_id = data.employee_id) →
      create_employee data db =
        .error ⟨409, "Employee with ID " ++ data.employee_id ++ " already exists"⟩ ∧
      step db (.createEmp raw) = db) ∧
    ((∀ e ∈ db.employees, e.employee_id ≠ data.employee_id) →
      (∃ e ∈ db.employees, e.email = data.email) →
      create_employee data db =
        .error ⟨409, "Email " ++ data.email ++ " is already registered"⟩ ∧
      step db (.createEmp raw) = db) ∧
    ((∀ e ∈ db.employees, e.employee_id ≠ data.employee_id) →
      (∀ e ∈ db.employees, e.email ≠ data.email) →
      create_employee data db =
        .ok (⟨data.employee_id, data.full_name, data.email, data.department⟩,
          step db (.createEmp raw))) := by
  refine ⟨?_, ?_, ?_⟩
  · rintro ⟨e, he, heq⟩
    cases hf : db.employees.find? (fun x => x.employee_id == data.employee_id) with
    | none =>
      rw [List.find?_eq_none] at hf
      exact absurd (by simp [heq]) (hf e he)
    | some e2 =>
      have hc := create_eq_conflict_id data db e2 hf
      refine ⟨hc, ?_⟩
      simp only [step, hv, createDB, hc]
  · intro hid ⟨e, he, heq⟩
    have hf1 : db.employees.find? (fun x => x.employee_id == data.employee_id) = none :=
      (find_eid_none_iff db _).mpr hid
    cases hf2 : db.employees.find? (fun x => x.email == data.email) with
    | none =>
      rw [List.find?_eq_none] at hf2
      exact absurd (by simp [heq]) (hf2 e he)
    | some e2 =>
      have hc := create_eq_conflict_email data db e2 hf1 hf2
      refine ⟨hc, ?_⟩
      simp only [step, hv, createDB, hc]
  · intro hid hem
    have hf1 : db.employees.find? (fun x => x.employee_id == data.employee_id) = none :=
      (find_eid_none_iff db _).mpr hid
    have hf2 : db.employees.find? (fun x => x.email == data.email) = none :=
      (find_email_none_iff db _).mpr hem
    have hc := create_eq_ok data db hf1 hf2
    have hs : step db (.createEmp raw) =
        { db with
          employees := db.employees ++
            [⟨db.nextEmployeeId, data.employee_id, data.full_name, data.email, data.department⟩],
          nextEmployeeId := db.nextEmployeeId + 1 } := by
      simp only [step, hv, createDB, hc]
    rw [hs]
    exact hc

/-- C3 witness: creating a second E1 against a store that already holds E1
is a 409 that leaves the store unchanged. -/
theorem create_employee_conflicts_witness :
    create_employee ⟨"E1", "Bob", "bob@y.com", "Ops"⟩ dbW =
      .error ⟨409, "Employee with ID E1 already exists"⟩ ∧
    step dbW (.createEmp ⟨"E1", "Bob", "bob@y.com", "Ops"⟩) = dbW :=
  (create_employee_conflicts ⟨"E1", "Bob", "bob@y.com", "Ops"⟩
      ⟨"E1", "Bob", "bob@y.com", "Ops"⟩ dbW (by rfl)).1
    ⟨⟨1, "E1", "Ann Lee", "ann@x.com", "Eng"⟩, by simp [dbW], rfl⟩

/-- C6: a valid payload whose identifier and email are unused creates
successfully (the representation is the trimmed, email-lower-cased form of
the raw payload) and is then retrievable by get-by-id with exactly those
fields. -/
theorem create_then_get (raw data : EmployeeCreate) (db : DB)
    (hv : validateEmployeeCreate raw = .ok data)
    (hid : ∀ e ∈ db.employees, e.employee_id ≠ data.employee_id)
    (hem : ∀ e ∈ db.employees, e.email ≠ data.email) :
    data = ⟨pyStrip raw.employee_id, pyStrip raw.full_name,
      pyLower (pyStrip raw.email), pyStrip raw.department⟩ ∧
    create_employee data db =
      .ok (⟨data.employee_id, data.full_name, data.email, data.department⟩, createDB data db) ∧
    get_employee data.employee_id (createDB data db) =
      .ok ⟨data.employee_id, data.full_name, data.email, data.department⟩ := by
  have hf1 : db.employees.find? (fun x => x.employee_id == data.employee_id) = none :=
    (find_eid_none_iff db _).mpr hid
  have hf2 : db.employees.find? (fun x => x.email == data.email) = none :=
    (find_email_none_iff db _).mpr hem
  have hc := create_eq_ok data db hf1 hf2
  have hcdb : createDB data db =
      { db with
        employees := db.employees ++
          [⟨db.nextEmployeeId, data.employee_id, data.full_name, data.email, data.department⟩],
        nextEmployeeId := db.nextEmployeeId + 1 } := by
    unfold createDB
    rw [hc]
  refine ⟨(validate_emp_ok raw data hv).1, by rw [hcdb]; exact hc, ?_⟩
  have hfind : (createDB data db).employees.find?
      (fun e => e.employee_id == data.employee_id) =
      some ⟨db.nextEmployeeId, data.employee_id, data.full_name, data.email, data.department⟩ := by
    rw [hcdb]
    dsimp only
    rw [List.find?_append, hf1]
    simp
  unfold get_employee
  rw [hfind]

/-- C6 witness: creating from a raw payload with stray whitespace and mixed
case against the empty store, then getting E1 back. -/
theorem create_then_get_witness :
    (⟨"E1", "Ann Lee", "ann@x.com", "Eng"⟩ : EmployeeCreate) =
      ⟨pyStrip " E1 ", pyStrip " Ann Lee ", pyLower (pyStrip " Ann@X.Com "), pyStrip " Eng "⟩ ∧
    create_employee ⟨"E1", "Ann Lee", "ann@x.com", "Eng"⟩ initDB =
      .ok (⟨"E1", "Ann Lee", "ann@x.com", "Eng"⟩,
        createDB ⟨"E1", "Ann Lee", "ann@x.com", "Eng"⟩ initDB) ∧
    get_employee "E1" (createDB ⟨"E1", "Ann Lee", "ann@x.com", "Eng"⟩ initDB) =
      .ok ⟨"E1", "Ann Lee", "ann@x.com", "Eng"⟩ :=
  create_then_get ⟨" E1 ", " Ann Lee ", " Ann@X.Com ", " Eng "⟩
    ⟨"E1", "Ann Lee", "ann@x.com", "Eng"⟩ initDB (by rfl) (by decide) (by decide)

/-- C4: deleting by an absent external identifier is a 404 naming it with
the store untouched; deleting a present employee removes exactly that
employee (it vanishes from membership and from get-by-id) and exactly its
attendance rows (the cascade), leaving everything else in place. -/
theorem delete_employee_cascade (eid : String) (db : DB) (hwf : WF db) :
    ((∀ e ∈ db.employees, e.employee_id ≠ eid) →
      delete_employee eid db = .error ⟨404, "Employee " ++ eid ++ " not found"⟩ ∧
      step db (.delEmp eid) = db) ∧
    (∀ emp, db.employees.find? (fun e => e.employee_id == eid) = some emp →
      delete_employee eid db =
        .ok ("Employee " ++ eid ++ " deleted successfully", deleteDB eid db) ∧
      step db (.delEmp eid) = deleteDB eid db ∧
      (∀ x, x ∈ (deleteDB eid db).employees ↔ x ∈ db.employees ∧ x.employee_id ≠ eid) ∧
      get_employee eid (deleteDB eid db) =
        .error ⟨404, "Employee " ++ eid ++ " not found"⟩ ∧
      (∀ r, r ∈ (deleteDB eid db).attendance ↔
        r ∈ db.attendance ∧ r.employee_id ≠ emp.id)) := by
  refine ⟨?_, ?_⟩
  · intro h
    have hf : db.employees.find? (fun e => e.employee_id == eid) = none := by
      rw [List.find?_eq_none]
      simpa using h
    have hdel := delete_eq_notfound eid db hf
    refine ⟨hdel, ?_⟩
    simp only [step, deleteDB, hdel]
  · intro emp hf
    have hdel := delete_eq_ok eid db emp hf
    have hddb : deleteDB eid db =
        { db with
          employees := db.employees.filter (fun x => x.id != emp.id),
          attendance := db.attendance.filter (fun r => r.employee_id != emp.id) } := by
      unfold deleteDB
      rw [hdel]
    have hempid : emp.employee_id = eid := by
      have := List.find?_some hf
      rwa [beq_iff_eq] at this
    have hmem : emp ∈ db.employees := List.mem_of_find?_eq_some hf
    have hiff : ∀ x, x ∈ (deleteDB eid db).employees ↔
        x ∈ db.employees ∧ x.employee_id ≠ eid := by
      intro x
      rw [hddb]
      dsimp only
      rw [List.mem_filter]
      constructor
      · rintro ⟨hx, hne⟩
        rw [bne_iff_ne] at hne
        refine ⟨hx, ?_⟩
        intro hxe
        exact hne (congrArg EmployeeRow.id
          (emp_eq_of_eid db.employees hwf.1 hx hmem (hxe.trans hempid.symm)))
      · rintro ⟨hx, hne⟩
        refine ⟨hx, ?_⟩
        rw [bne_iff_ne]
        intro hide
        apply hne
        rw [emp_eq_of_id db.employees hwf.1 hx hmem hide]
        exact hempid
    refine ⟨by rw [hddb]; exact hdel, rfl, hiff, ?_, ?_⟩
    · unfold get_employee
      have hnone : (deleteDB eid db).employees.find? (fun e => e.employee_id == eid) = none := by
        rw [List.find?_eq_none]
        intro x hx
        simp [((hiff x).mp hx).2]
      rw [hnone]
    · intro r
      rw [hddb]
      dsimp only
      rw [List.mem_filter, bne_iff_ne]

/-- C4 witness: deleting E1 from a store where E1 owns two attendance rows,
then failing to get E1 back. -/
theorem delete_employee_cascade_witness :
    delete_employee "E1" dbDates =
      .ok ("Employee E1 deleted successfully", deleteDB "E1" dbDates) ∧
    get_employee "E1" (deleteDB "E1" dbDates) = .error ⟨404, "Employee E1 not found"⟩ := by
  have h := (delete_employee_cascade "E1" dbDates (by decide)).2
    ⟨1, "E1", "Ann Lee", "ann@x.com", "Eng"⟩ (by rfl)
  exact ⟨h.1, h.2.2.2.1⟩

/-- C9: with a non-empty `employee_id` filter the attendance list answers
200 with exactly the rows owned by that external identifier (whatever the
date parameter holds): every returned record carries that identifier, and
every attendance row of that employee appears, rendered as (external id,
ISO date, status). -/
theorem list_attendance_by_employee (db : DB) (eid : String) (dO : Option String)
    (hwf : WF db) (hne : eid ≠ "") :
    ∃ l, list_attendance (some eid) dO db = .ok l ∧
      (∀ a ∈ l, a.employee_id = eid) ∧
      (∀ r ∈ db.attendance, ∀ e ∈ db.employees, e.id = r.employee_id → e.employee_id = eid →
        (⟨eid, isoformat r.date, r.status⟩ : AttendanceRecord) ∈ l) := by
  have hl : list_attendance (some eid) dO db =
      .ok (((joinAttendance db).filter
        (fun p => p.2.employee_id == eid)).map renderRecord) := by
    rw [list_attendance_eq (some eid) dO db]
    simp [truthy, hne]
  refine ⟨_, hl, ?_, ?_⟩
  · intro a ha
    rw [List.mem_map] at ha
    obtain ⟨p, hp, rfl⟩ := ha
    rw [List.mem_filter] at hp
    have hb := hp.2
    rw [beq_iff_eq] at hb
    exact hb
  · intro r hr e he heid heeq
    rw [List.mem_map]
    refine ⟨(r, e), List.mem_filter.mpr ⟨?_, ?_⟩, ?_⟩
    · unfold joinAttendance
      rw [List.mem_filterMap]
      refine ⟨r, hr, ?_⟩
      have hfind : db.employees.find? (fun x => x.id == r.employee_id) = some e := by
        cases hf : db.employees.find? (fun x => x.id == r.employee_id) with
        | none =>
          rw [List.find?_eq_none] at hf
          exact absurd (by simp [heid]) (hf e he)
        | some e2 =>
          have h1 := List.find?_some hf
          rw [beq_iff_eq] at h1
          have h2 := List.mem_of_find?_eq_some hf
          rw [← emp_eq_of_id db.employees hwf.1 h2 he (h1.trans heid.symm)]
      rw [hfind]
      rfl
    · show (e.employee_id == eid) = true
      rw [beq_iff_eq]
      exact heeq
    · show renderRecord (r, e) = ⟨eid, isoformat r.date, r.status⟩
      unfold renderRecord
      rw [heeq]

/-- C9 witness: filtering by E1 against the two-row store returns both of
E1's records and nothing else. -/
theorem list_attendance_by_employee_witness :
    ∃ l, list_attendance (some "E1") none dbDates = .ok l ∧
      (∀ a ∈ l, a.employee_id = "E1") ∧
      (∀ r ∈ dbDates.attendance, ∀ e ∈ dbDates.employees,
        e.id = r.employee_id → e.employee_id = "E1" →
        (⟨"E1", isoformat r.date, r.status⟩ : AttendanceRecord) ∈ l) :=
  list_attendance_by_employee dbDates "E1" none (by decide) (by decide)

/-- The in-place status overwrite touches no key field of any row. -/
lemma ow_fields (rid : Nat) (s : Status) (x : AttendanceRow) :
    ((if x.id == rid then { x with status := s } else x) : AttendanceRow).id = x.id ∧
    ((if x.id == rid then { x with status := s } else x) : AttendanceRow).employee_id =
      x.employee_id ∧
    ((if x.id == rid then { x with status := s } else x) : AttendanceRow).date = x.date := by
  by_cases hx : (x.id == rid) = true <;> simp [hx]

/-- The (employee, date) key test composed with the status overwrite is the
key test itself. -/
lemma key_comp_overwrite (rid : Nat) (s : Status) (fk : Nat) (d : CalDate) :
    ((fun r : AttendanceRow => r.employee_id == fk && r.date == d) ∘
      (fun x => if x.id == rid then { x with status := s } else x)) =
      (fun r : AttendanceRow => r.employee_id == fk && r.date == d) := by
  funext x
  obtain ⟨h1, h2, h3⟩ := ow_fields rid s x
  simp only [Function.comp_apply]
  rw [h2, h3]

/-- Looking a (employee, date) key up after an in-place status overwrite
finds the overwritten image of whatever it found before. -/
lemma find?_overwrite (rid : Nat) (s : Status) (fk : Nat) (d : CalDate)
    (l : List AttendanceRow) :
    (overwriteStatus rid s l).find? (fun r => r.employee_id == fk && r.date == d) =
      (l.find? (fun r => r.employee_id == fk && r.date == d)).map
        (fun x => if x.id == rid then { x with status := s } else x) := by
  unfold overwriteStatus
  rw [List.find?_map, key_comp_overwrite]

/-- An in-place status overwrite does not change how many rows carry a
given (employee, date) pair. -/
lemma length_filter_overwrite (rid : Nat) (s : Status) (fk : Nat) (d : CalDate)
    (l : List AttendanceRow) :
    ((overwriteStatus rid s l).filter
      (fun r => r.employee_id == fk && r.date == d)).length =
      (l.filter (fun r => r.employee_id == fk && r.date == d)).length := by
  unfold overwriteStatus
  rw [List.filter_map, key_comp_overwrite, List.length_map]

/-- No mark-attendance call changes the employees table. -/
lemma markDB_employees (data : AttendanceCreate) (db : DB) :
    (markDB data db).employees = db.employees := by
  cases h1 : db.employees.find? (fun e => e.employee_id == data.employee_id) with
  | none =>
    unfold markDB
    rw [mark_eq_notfound data db h1]
  | some emp =>
    cases hd : dateFromIso data.date with
    | none =>
      unfold markDB
      rw [mark_eq_baddate data db emp h1 hd]
    | some d =>
      cases h2 : db.attendance.find? (fun r => r.employee_id == emp.id && r.date == d) with
      | some rec0 =>
        unfold markDB
        rw [mark_eq_update data db emp d rec0 h1 hd h2]
      | none =>
        unfold markDB
        rw [mark_eq_insert data db emp d h1 hd h2]

/-- A successful mark determines the next store. -/
lemma markDB_eq (data : AttendanceCreate) (db : DB) {resp : AttendanceRecord} {db2 : DB}
    (h : mark_attendance data db = .ok (resp, db2)) : markDB data db = db2 := by
  unfold markDB
  rw [h]

/-- C2: in every store reachable by serving any sequence of requests
(create/get/list/delete employee, mark/list attendance) from the fresh
schema, at most one attendance row exists per (employee, date) pair: the
rows are pairwise distinct on that key. -/
theorem reachable_attendance_unique (ops : List Op) :
    (run ops).attendance.Pairwise
      (fun a b => ¬(a.employee_id = b.employee_id ∧ a.date = b.date)) :=
  ((wf_run ops).2.2.1).imp (fun h => h.2)

/-- C1: mark-attendance is an upsert keyed on (employee, date). For a
well-formed store, an existing employee and a valid date: each call echoes
the employee's external id, the ISO date and the status it was given; after
marking twice with the same key, exactly one attendance row carries that
key and it holds the second status; the first call updated in place (same
row count) when a row for the key existed and inserted (one more row)
otherwise. -/
theorem mark_attendance_upsert (db : DB) (data1 data2 : AttendanceCreate) (emp : EmployeeRow)
    (d : CalDate) (hwf : WF db)
    (hemp : db.employees.find? (fun e => e.employee_id == data1.employee_id) = some emp)
    (heid : data2.employee_id = data1.employee_id)
    (hdate : data2.date = data1.date)
    (hd : dateFromIso data1.date = some d) :
    emp.employee_id = data1.employee_id ∧
    mark_attendance data1 db =
      .ok (⟨data1.employee_id, isoformat d, data1.status⟩, markDB data1 db) ∧
    mark_attendance data2 (markDB data1 db) =
      .ok (⟨data2.employee_id, isoformat d, data2.status⟩, markDB data2 (markDB data1 db)) ∧
    pairCount (markDB data2 (markDB data1 db)) emp.id d = 1 ∧
    (∀ r ∈ (markDB data2 (markDB data1 db)).attendance,
      r.employee_id = emp.id → r.date = d → r.status = data2.status) ∧
    ((∃ r ∈ db.attendance, r.employee_id = emp.id ∧ r.date = d) →
      (markDB data1 db).attendance.length = db.attendance.length) ∧
    ((∀ r ∈ db.attendance, ¬(r.employee_id = emp.id ∧ r.date = d)) →
      (markDB data1 db).attendance.length = db.attendance.length + 1) := by
  have hene : emp.employee_id = data1.employee_id := by
    have := List.find?_some hemp
    rwa [beq_iff_eq] at this
  have hene2 : emp.employee_id = data2.employee_id := hene.trans heid.symm
  have hd2 : dateFromIso data2.date = some d := by rw [hdate]; exact hd
  have hemp1 : (markDB data1 db).employees.find?
      (fun e => e.employee_id == data2.employee_id) = some emp := by
    rw [markDB_employees, heid]
    exact hemp
  obtain ⟨hp, hb, hap, hab, hfk⟩ := hwf
  cases h2 : db.attendance.find? (fun r => r.employee_id == emp.id && r.date == d) with
  | some rec0 =>
    have hr0mem := List.mem_of_find?_eq_some h2
    have hr0key := List.find?_some h2
    rw [Bool.and_eq_true, beq_iff_eq, beq_iff_eq] at hr0key
    obtain ⟨hr0fk, hr0d⟩ := hr0key
    have hm1 := mark_eq_update data1 db emp d rec0 hemp hd h2
    have hdb1 : markDB data1 db =
        { db with attendance := overwriteStatus rec0.id data1.status db.attendance } :=
      markDB_eq data1 db hm1
    have hdb1att : (markDB data1 db).attendance =
        overwriteStatus rec0.id data1.status db.attendance := by rw [hdb1]
    have hfind1 : (markDB data1 db).attendance.find?
        (fun r => r.employee_id == emp.id && r.date == d) =
        some { rec0 with status := data1.status } := by
      rw [hdb1att, find?_overwrite, h2]
      simp
    have hm2 := mark_eq_update data2 (markDB data1 db) emp d
      { rec0 with status := data1.status } hemp1 hd2 hfind1
    dsimp only at hm2
    have hdb2 : markDB data2 (markDB data1 db) =
        { (markDB data1 db) with
          attendance := overwriteStatus rec0.id data2.status (markDB data1 db).attendance } :=
      markDB_eq data2 (markDB data1 db) hm2
    have hdb2att : (markDB data2 (markDB data1 db)).attendance =
        overwriteStatus rec0.id data2.status
          (overwriteStatus rec0.id data1.status db.attendance) := by
      rw [hdb2]
      dsimp only
      rw [hdb1att]
    refine ⟨hene, ?_, ?_, ?_, ?_, ?_, ?_⟩
    · rw [hdb1, ← hene, ← hr0d]
      exact hm1
    · rw [hdb2, ← hene2, ← hr0d]
      exact hm2
    · unfold pairCount
      rw [hdb2att, length_filter_overwrite, length_filter_overwrite]
      have hle := pair_filter_length_le_one db.attendance emp.id d hap
      have hmemf : rec0 ∈ db.attendance.filter
          (fun r => r.employee_id == emp.id && r.date == d) :=
        List.mem_filter.mpr ⟨hr0mem, by simp [hr0fk, hr0d]⟩
      have hge := List.length_pos_of_mem hmemf
      omega
    · intro r hr hrfk hrd
      rw [hdb2att] at hr
      unfold overwriteStatus at hr
      rw [List.mem_map] at hr
      obtain ⟨y, hy, rfl⟩ := hr
      rw [List.mem_map] at hy
      obtain ⟨x, hx, rfl⟩ := hy
      obtain ⟨g1, g2, g3⟩ := ow_fields rec0.id data2.status
        (if x.id == rec0.id then { x with status := data1.status } else x)
      obtain ⟨f1, f2, f3⟩ := ow_fields rec0.id data1.status x
      rw [g2, f2] at hrfk
      rw [g3, f3] at hrd
      have hxeq : x = rec0 := att_eq_of_key db.attendance hap hx hr0mem
        (hrfk.trans hr0fk.symm) (hrd.trans hr0d.symm)
      subst hxeq
      simp
    · intro _
      rw [hdb1att]
      unfold overwriteStatus
      rw [List.length_map]
    · intro hno
      exact absurd ⟨hr0fk, hr0d⟩ (hno rec0 hr0mem)
  | none =>
    have hnokey : ∀ r ∈ db.attendance, ¬(r.employee_id = emp.id ∧ r.date = d) := by
      rw [List.find?_eq_none] at h2
      intro r hr hk
      exact h2 r hr (by simp [hk.1, hk.2])
    have hm1 := mark_eq_insert data1 db emp d hemp hd h2
    have hdb1 : markDB data1 db =
        { db with
          attendance := db.attendance ++ [⟨db.nextAttendanceId, emp.id, d, data1.status⟩],
          nextAttendanceId := db.nextAttendanceId + 1 } :=
      markDB_eq data1 db hm1
    have hdb1att : (markDB data1 db).attendance =
        db.attendance ++ [⟨db.nextAttendanceId, emp.id, d, data1.status⟩] := by rw [hdb1]
    have hfind1 : (markDB data1 db).attendance.find?
        (fun r => r.employee_id == emp.id && r.date == d) =
        some ⟨db.nextAttendanceId, emp.id, d, data1.status⟩ := by
      rw [hdb1att, List.find?_append, h2]
      simp [List.find?]
    have hm2 := mark_eq_update data2 (markDB data1 db) emp d
      ⟨db.nextAttendanceId, emp.id, d, data1.status⟩ hemp1 hd2 hfind1
    dsimp only at hm2
    have hdb2 : markDB data2 (markDB data1 db) =
        { (markDB data1 db) with
          attendance := overwriteStatus db.nextAttendanceId data2.status
            (markDB data1 db).attendance } :=
      markDB_eq data2 (markDB data1 db) hm2
    have howl : overwriteStatus db.nextAttendanceId data2.status
        (db.attendance ++ [⟨db.nextAttendanceId, emp.id, d, data1.status⟩]) =
        db.attendance ++ [⟨db.nextAttendanceId, emp.id, d, data2.status⟩] := by
      unfold overwriteStatus
      rw [List.map_append]
      have hid : ∀ a ∈ db.attendance,
          ((if a.id == db.nextAttendanceId then { a with status := data2.status } else a) :
            AttendanceRow) = id a := by
        intro a ha
        have hne : (a.id == db.nextAttendanceId) = false := by
          rw [beq_eq_false_iff_ne]
          exact Nat.ne_of_lt (hab a ha)
        simp [hne]
      rw [List.map_congr_left hid, List.map_id]
      simp
    have hdb2att : (markDB data2 (markDB data1 db)).attendance =
        db.attendance ++ [⟨db.nextAttendanceId, emp.id, d, data2.status⟩] := by
      rw [hdb2]
      dsimp only
      rw [hdb1att, howl]
    refine ⟨hene, ?_, ?_, ?_, ?_, ?_, ?_⟩
    · rw [hdb1, ← hene]
      exact hm1
    · rw [hdb2, ← hene2]
      exact hm2
    · unfold pairCount
      rw [hdb2att, List.filter_append]
      have hf0 : db.attendance.filter (fun r => r.employee_id == emp.id && r.date == d) = [] :=
        List.filter_eq_nil_iff.mpr (by rw [List.find?_eq_none] at h2; exact h2)
      rw [hf0]
      simp [List.filter]
    · intro r hr hrfk hrd
      rw [hdb2att] at hr
      rw [List.mem_append, List.mem_singleton] at hr
      rcases hr with hr | rfl
      · exact absurd ⟨hrfk, hrd⟩ (hnokey r hr)
      · rfl
    · rintro ⟨r, hr, hk⟩
      exact absurd hk (hnokey r hr)
    · intro _
      rw [hdb1att, List.length_append]
      rfl

/-- C1 witness: marking E1 Present then Absent on 2024-01-01 against the
one-employee store: the second call echoes Absent and exactly one row
carries the (employee, date) pair. -/
theorem mark_attendance_upsert_witness :
    mark_attendance ⟨"E1", "2024-01-01", .Absent⟩
        (markDB ⟨"E1", "2024-01-01", .Present⟩ dbW) =
      .ok (⟨"E1", "2024-01-01", .Absent⟩,
        markDB ⟨"E1", "2024-01-01", .Absent⟩ (markDB ⟨"E1", "2024-01-01", .Present⟩ dbW)) ∧
    pairCount (markDB ⟨"E1", "2024-01-01", .Absent⟩
      (markDB ⟨"E1", "2024-01-01", .Present⟩ dbW)) 1 ⟨2024, 1, 1⟩ = 1 := by
  have h := mark_attendance_upsert dbW ⟨"E1", "2024-01-01", .Present⟩
    ⟨"E1", "2024-01-01", .Absent⟩ ⟨1, "E1", "Ann Lee", "ann@x.com", "Eng"⟩
    ⟨2024, 1, 1⟩ (by decide) (by rfl) rfl rfl (by rfl)
  exact ⟨h.2.2.1, h.2.2.2.1⟩

end HrmsLite
